import Mathlib

/-!
# Verification of the kellyseekv2 audio/session core

Shallow embedding of the audio-session core of the kellyseekv2 client
(`src/unnamed/part_000`): the playback scheduler driven by the `onmessage`
callback, the turn aggregator, the capture-side level metering, and the
session lifecycle functions `startLiveSession` / `stopLiveSession`.

Times and audio samples are modelled as rationals / reals; the JavaScript
source computes with IEEE doubles, and all claims here are about the exact
arithmetic the source expresses.
-/

namespace KellySeek

/-! ## Playback scheduler

Embeds the audio-chunk branch of the `onmessage` callback
(`src/unnamed/part_000` lines 137-152) and the `interrupted` branch
(lines 177-182).  The mutable refs `nextStartTimeRef`, `sourcesRef` and the
`isSpeaking` flag become fields of an explicit state.  A playback source is
identified by a `Nat`; `stopped` records every source on which `.stop()` has
been called (a stopped source never fires audio). -/

structure SchedulerState where
  nextStartTime : ℚ
  sources : List Nat
  stopped : List Nat
  isSpeaking : Bool
  deriving DecidableEq, Repr

/-- Initial scheduler state: `nextStartTimeRef = useRef<number>(0)`,
`sourcesRef = useRef(new Set())`, `isSpeaking = false` (lines 40, 48-49). -/
def initSchedulerState : SchedulerState :=
  { nextStartTime := 0, sources := [], stopped := [], isSpeaking := false }

/-- One arriving audio chunk (lines 139-152): `setIsSpeaking(true)`;
`nextStartTimeRef.current = Math.max(nextStartTimeRef.current, ctx.currentTime)`;
`source.start(nextStartTimeRef.current)`; `nextStartTimeRef.current += buffer.duration`;
`sourcesRef.current.add(source)`.  `duration` is the decoded buffer's duration,
`now` is the output clock reading `ctx.currentTime` at this invocation, `srcId`
identifies the freshly created buffer source.  Returns the scheduled start
time together with the updated state. -/
def scheduleChunk (srcId : Nat) (duration now : ℚ) (s : SchedulerState) :
    ℚ × SchedulerState :=
  let start := max s.nextStartTime now
  (start,
   { s with nextStartTime := start + duration
            sources := srcId :: s.sources
            isSpeaking := true })

/-- Run the scheduler over a sequence of chunks, each given as a pair
`(duration, clock reading at arrival)`; returns the list of scheduled start
times.  Source identity does not influence timing, so fresh ids are not
threaded here. -/
def runSchedule : SchedulerState → List (ℚ × ℚ) → List ℚ
  | _, [] => []
  | s, (d, n) :: rest =>
      let p := scheduleChunk 0 d n s
      p.1 :: runSchedule p.2 rest

/-- The `interrupted` branch (lines 177-182):
`sourcesRef.current.forEach(s => s.stop()); sourcesRef.current.clear();
nextStartTimeRef.current = 0; setIsSpeaking(false)`. -/
def handleInterrupted (s : SchedulerState) : SchedulerState :=
  { nextStartTime := 0
    sources := []
    stopped := s.stopped ++ s.sources
    isSpeaking := false }

/-- The claim's side condition: every chunk after the first arrives while the
output clock reading is at most the accumulated schedule.  `clockOk t chunks`
says the clock reading attached to each chunk is at most the schedule
accumulated so far, starting from accumulated value `t`. -/
def clockOk : ℚ → List (ℚ × ℚ) → Prop
  | _, [] => True
  | t, (d, n) :: rest => n ≤ t ∧ clockOk (t + d) rest

theorem clockOk_nil (t : ℚ) : clockOk t [] := trivial

theorem clockOk_cons {t d n : ℚ} {rest : List (ℚ × ℚ)}
    (h : clockOk t ((d, n) :: rest)) : n ≤ t ∧ clockOk (t + d) rest := h

/-- From any state whose `nextStartTime` is `t`, if the clock stays at or
below the accumulated schedule, chunk `i` is scheduled at
`t + Σ_{j<i} d_j`. -/
theorem runSchedule_get_of_clockOk :
    ∀ (chunks : List (ℚ × ℚ)) (s : SchedulerState) (t : ℚ),
      s.nextStartTime = t → clockOk t chunks →
      ∀ i, i < chunks.length →
        (runSchedule s chunks)[i]? =
          some (t + (((chunks.take i).map Prod.fst).sum)) := by
  intro chunks
  induction chunks with
  | nil =>
      intro s t _ _ i hi
      simp at hi
  | cons hd rest ih =>
      obtain ⟨d, n⟩ := hd
      intro s t hst hok i hi
      obtain ⟨hn, hok'⟩ := clockOk_cons hok
      have hmax : max s.nextStartTime n = t := by
        rw [hst]; exact max_eq_left hn
      cases i with
      | zero =>
          simp [runSchedule, scheduleChunk, hmax]
      | succ j =>
          have hj : j < rest.length := by
            simpa [Nat.succ_lt_succ_iff] using hi
          have hnext :
              (scheduleChunk 0 d n s).2.nextStartTime = t + d := by
            simp [scheduleChunk, hmax]
          have := ih (scheduleChunk 0 d n s).2 (t + d) hnext hok' j hj
          simp only [runSchedule, List.getElem?_cons_succ]
          rw [this]
          congr 1
          simp [List.take_succ_cons]
          ring

/-- C1 — Gapless scheduling: starting from the fresh scheduler state, for a
sequence of chunks whose first arrives at clock reading `n1 ≥ 0` and whose
later arrivals each find the clock at or below the accumulated schedule,
chunk `i` is scheduled at `t0 + Σ_{j<i} d_j` with `t0 = n1`, the clock
reading when the first chunk is scheduled. -/
theorem gapless_scheduling (d1 n1 : ℚ) (rest : List (ℚ × ℚ))
    (h0 : 0 ≤ n1) (hok : clockOk (n1 + d1) rest) :
    ∀ i, i < ((d1, n1) :: rest).length →
      (runSchedule initSchedulerState ((d1, n1) :: rest))[i]? =
        some (n1 + (((((d1, n1) :: rest)).take i).map Prod.fst).sum) := by
  intro i hi
  have hmax : max (initSchedulerState.nextStartTime) n1 = n1 := by
    simp [initSchedulerState]
    exact h0
  cases i with
  | zero =>
      simp [runSchedule, scheduleChunk, hmax, initSchedulerState]
      exact h0
  | succ j =>
      have hj : j < rest.length := by
        simpa [Nat.succ_lt_succ_iff] using hi
      have hnext :
          (scheduleChunk 0 d1 n1 initSchedulerState).2.nextStartTime
            = n1 + d1 := by
        simp [scheduleChunk, initSchedulerState]
        exact h0
      have := runSchedule_get_of_clockOk rest
        (scheduleChunk 0 d1 n1 initSchedulerState).2 (n1 + d1) hnext hok j hj
      simp only [runSchedule, List.getElem?_cons_succ]
      rw [this]
      congr 1
      simp [List.take_succ_cons]
      ring

/-- C1 witness: the spec's own example — three half-second chunks arriving
while the clock reads 0 schedule at 0, 1/2 and 1. -/
theorem gapless_scheduling_witness :
    (runSchedule initSchedulerState
        [((1 : ℚ)/2, 0), ((1 : ℚ)/2, 0), ((1 : ℚ)/2, 0)])[2]? = some 1 := by
  have h := gapless_scheduling ((1 : ℚ)/2) 0 [((1 : ℚ)/2, 0), ((1 : ℚ)/2, 0)]
    (by norm_num) (by constructor <;> norm_num [clockOk]) 2 (by norm_num)
  norm_num at h ⊢
  convert h using 2

/-- C2 — SchedulingClock invariant, refuted on the code: when an
`interrupted` event is handled while the output clock reads 1 (any session in
which audio has already been playing for a second), line 180 of the source
(`nextStartTimeRef.current = 0`) leaves `nextStartTime = 0`, strictly below
the output sink's current time, so the invariant
`nextStartTime ≥ outputClock.now()` does not hold after the event. -/
theorem nextStartTime_invariant_bug :
    (handleInterrupted
        { nextStartTime := 3/2, sources := [0], stopped := [],
          isSpeaking := true }).nextStartTime < (1 : ℚ) := by
  norm_num [handleInterrupted]

/-- C3 — Interruption clears all: after `handleInterrupted`, the
active-source registry is empty and every source that was in the registry
before the event has had `.stop()` called on it (and so fires no audio
afterward). -/
theorem interruption_clears_all (s : SchedulerState) :
    (handleInterrupted s).sources = [] ∧
      ∀ x ∈ s.sources, x ∈ (handleInterrupted s).stopped := by
  refine ⟨rfl, ?_⟩
  intro x hx
  simp [handleInterrupted]
  exact Or.inr hx

/-- C3 witness: interrupting a session with two active sources leaves an
empty registry and both sources stopped. -/
theorem interruption_clears_all_witness :
    (handleInterrupted
        { nextStartTime := 2, sources := [5, 7], stopped := [1],
          isSpeaking := true }).sources = [] ∧
      (5 ∈ (handleInterrupted
        { nextStartTime := 2, sources := [5, 7], stopped := [1],
          isSpeaking := true }).stopped) := by
  have h := interruption_clears_all
    { nextStartTime := 2, sources := [5, 7], stopped := [1],
      isSpeaking := true }
  exact ⟨h.1, h.2 5 (by decide)⟩

/-! ## Turn aggregator

Embeds the transcript branches of the `onmessage` callback
(`src/unnamed/part_000` lines 154-176).  The mutable refs
`currentInputTextRef` / `currentOutputTextRef` and the React state
`threads` / `activeThreadId` become fields of `TurnState`.  Timestamps and
the id source `Date.now()` are modelled by a `now : Nat` parameter.  JS
string truthiness (`if (userTxt || assistantTxt)`, `userTxt ? _ : _`,
`activeThreadId || _`) is the "non-empty / non-null" test. -/

inductive Role where
  | user
  | assistant
  deriving DecidableEq, Repr

structure Message where
  id : String
  role : Role
  text : String
  timestamp : Nat
  deriving DecidableEq, Repr

structure ChatThread where
  id : String
  title : String
  messages : List Message
  updatedAt : Nat
  deriving DecidableEq, Repr

structure TurnState where
  threads : List ChatThread
  activeThreadId : Option String
  currentInputText : String
  currentOutputText : String
  deriving DecidableEq, Repr

/-- Whitespace test used by JavaScript's `String.prototype.trim`:
WhiteSpace and LineTerminator code points (the common ones — space, tab,
LF, VT, FF, CR, NBSP, BOM; the exotic Unicode space separators never occur
in the claims' inputs). -/
def isJsWhitespace (c : Char) : Bool :=
  c == ' ' || c == '\t' || c == '\n' || c == '\r' ||
    c.toNat == 11 || c.toNat == 12 || c.toNat == 0xA0 || c.toNat == 0xFEFF

/-- JavaScript `String.prototype.trim`: drop whitespace from both ends. -/
def jsTrim (s : String) : String :=
  ⟨((s.toList.dropWhile isJsWhitespace).reverse.dropWhile
      isJsWhitespace).reverse⟩

/-- Line 154: `currentInputTextRef.current += message.serverContent.inputTranscription.text`. -/
def onInputFragment (t : String) (s : TurnState) : TurnState :=
  { s with currentInputText := s.currentInputText ++ t }

/-- Line 155: `currentOutputTextRef.current += message.serverContent.outputTranscription.text`. -/
def onOutputFragment (t : String) (s : TurnState) : TurnState :=
  { s with currentOutputText := s.currentOutputText ++ t }

/-- The `turnComplete` branch (lines 157-176).  Trims both accumulators; if
either trimmed text is non-empty, lazily creates a thread when none is
active, builds the user and/or assistant messages and appends them to the
current thread; unconditionally clears both accumulators.  Returns the list
of emitted messages (`newMsgs` in the source) with the updated state. -/
def handleTurnComplete (now : Nat) (s : TurnState) : List Message × TurnState :=
  let userTxt := jsTrim s.currentInputText
  let assistantTxt := jsTrim s.currentOutputText
  if userTxt ≠ "" ∨ assistantTxt ≠ "" then
    let currentId := s.activeThreadId.getD (toString now)
    let threads1 :=
      if s.activeThreadId = none then
        { id := currentId, title := "Voice Interaction", messages := [],
          updatedAt := now } :: s.threads
      else s.threads
    let newMsgs : List Message :=
      (if userTxt ≠ "" then
        [{ id := "u-" ++ toString now, role := Role.user, text := userTxt,
           timestamp := now }] else []) ++
      (if assistantTxt ≠ "" then
        [{ id := "a-" ++ toString now, role := Role.assistant,
           text := assistantTxt, timestamp := now }] else [])
    let threads2 := threads1.map fun t =>
      if t.id = currentId then
        { t with messages := t.messages ++ newMsgs, updatedAt := now }
      else t
    (newMsgs,
     { threads := threads2
       activeThreadId :=
         if s.activeThreadId = none then some currentId else s.activeThreadId
       currentInputText := ""
       currentOutputText := "" })
  else
    ([], { s with currentInputText := "", currentOutputText := "" })

/-- C4 — Turn aggregation correctness: from empty accumulators, after input
fragments "Hello " then "world" and output fragment "Hi", turn-complete
emits exactly the two messages user:"Hello world" then assistant:"Hi", and
both accumulators are empty afterward — for any thread list, active thread
and timestamp. -/
theorem turn_aggregation (threads : List ChatThread)
    (aid : Option String) (now : Nat) :
    let s := onOutputFragment "Hi"
      (onInputFragment "world"
        (onInputFragment "Hello "
          { threads := threads, activeThreadId := aid,
            currentInputText := "", currentOutputText := "" }))
    let r := handleTurnComplete now s
    (r.1.map fun m => (m.role, m.text)) =
        [(Role.user, "Hello world"), (Role.assistant, "Hi")] ∧
      r.2.currentInputText = "" ∧ r.2.currentOutputText = "" := by
  refine ⟨?_, ?_, ?_⟩ <;>
    simp [handleTurnComplete, onInputFragment, onOutputFragment, jsTrim,
      isJsWhitespace]

/-- C5 — Empty turn yields no messages: when both accumulators trim to the
empty string, turn-complete emits zero messages and still clears both
accumulators. -/
theorem empty_turn_no_messages (now : Nat) (s : TurnState)
    (hin : jsTrim s.currentInputText = "")
    (hout : jsTrim s.currentOutputText = "") :
    (handleTurnComplete now s).1 = [] ∧
      (handleTurnComplete now s).2.currentInputText = "" ∧
      (handleTurnComplete now s).2.currentOutputText = "" := by
  simp [handleTurnComplete, hin, hout]

/-- C5 witness: whitespace-only accumulators at turn-complete. -/
theorem empty_turn_no_messages_witness :
    (handleTurnComplete 0
        { threads := [], activeThreadId := none,
          currentInputText := "  ", currentOutputText := "\n" }).1 = [] ∧
      (handleTurnComplete 0
        { threads := [], activeThreadId := none,
          currentInputText := "  ", currentOutputText := "\n" }).2.currentInputText = "" ∧
      (handleTurnComplete 0
        { threads := [], activeThreadId := none,
          currentInputText := "  ", currentOutputText := "\n" }).2.currentOutputText = "" :=
  empty_turn_no_messages 0
    { threads := [], activeThreadId := none,
      currentInputText := "  ", currentOutputText := "\n" }
    (by decide) (by decide)

/-- C10 — Implicit frame effect of an empty turn: when both accumulators
trim to the empty string, turn-complete leaves the thread list and the
active-thread selection untouched and modifies nothing but the two
accumulators, which it clears. -/
theorem empty_turn_frame_effect (now : Nat) (s : TurnState)
    (hin : jsTrim s.currentInputText = "")
    (hout : jsTrim s.currentOutputText = "") :
    (handleTurnComplete now s).2.threads = s.threads ∧
      (handleTurnComplete now s).2.activeThreadId = s.activeThreadId ∧
      (handleTurnComplete now s).2 =
        { s with currentInputText := "", currentOutputText := "" } := by
  simp [handleTurnComplete, hin, hout]

/-- A concrete session snapshot (one thread, whitespace-only accumulators)
used to witness the empty-turn frame effect. -/
def sampleEmptyTurnState : TurnState :=
  { threads := [{ id := "1", title := "t", messages := [], updatedAt := 0 }]
    activeThreadId := some "1"
    currentInputText := " \t"
    currentOutputText := "" }

/-- C10 witness: an empty turn over one existing thread changes neither the
thread list nor the selection. -/
theorem empty_turn_frame_effect_witness :
    (handleTurnComplete 7 sampleEmptyTurnState).2.threads =
        sampleEmptyTurnState.threads ∧
      (handleTurnComplete 7 sampleEmptyTurnState).2.activeThreadId =
        some "1" :=
  let h := empty_turn_frame_effect 7 sampleEmptyTurnState
    (by decide) (by decide)
  ⟨h.1, h.2.1⟩

/-! ## Session lifecycle

Embeds `startLiveSession` (`src/unnamed/part_000` lines 93-193) and
`stopLiveSession` (lines 195-218).  The refs `sessionRef`, `streamRef`,
`inputAudioContextRef`, `outputAudioContextRef` and the React flags become
fields of `AppState`.  An `AudioContext` carries its `state` (`running`
when freshly constructed, `closed` after `close()`), which
`stopLiveSession` tests at lines 205 and 209.  The `try`-block of
`startLiveSession` performs four fallible steps in order — construct the
input context, construct the output context, `getUserMedia`, `ai.live.connect`
— and its `catch` handler only does `console.error(err);
setIsInitializing(false)` (lines 189-192); `FailPoint` says which step, if
any, throws. -/

inductive CtxState where
  | running
  | closed
  deriving DecidableEq, Repr

structure AppState where
  session : Option Unit
  stream : Option Unit
  inputAudioContext : Option CtxState
  outputAudioContext : Option CtxState
  isLive : Bool
  isSpeaking : Bool
  isInitializing : Bool
  audioLevel : ℚ
  deriving DecidableEq, Repr

/-- Initial render: every ref is `null` (lines 46-51), every flag `false`,
`audioLevel = 0` (lines 39-42). -/
def initialAppState : AppState :=
  { session := none, stream := none, inputAudioContext := none,
    outputAudioContext := none, isLive := false, isSpeaking := false,
    isInitializing := false, audioLevel := 0 }

/-- Which step of the `try`-block of `startLiveSession` throws (or none). -/
inductive FailPoint where
  | atInputContext
  | atOutputContext
  | atGetUserMedia
  | atConnect
  | success
  deriving DecidableEq, Repr

/-- How a call to `startLiveSession` terminates: early `return` at the
reentry guard (line 94), the `catch` handler (lines 189-192), or the happy
path through connection. -/
inductive StartResult where
  | silentReturn
  | caughtError
  | connected
  deriving DecidableEq, Repr

/-- `startLiveSession` (lines 93-193).  Guard: `if (isInitializing || isLive)
return;`.  Then `setIsInitializing(true)` and, in order, the input audio
context, output audio context, capture stream and session are acquired; a
ref is assigned only when its acquiring step succeeds.  On the step named by
`fp` throwing, control jumps to `catch`, which only resets the initializing
flag.  On success the `onopen` callback sets `isLive` and clears the
initializing flag, and the awaited session is stored in `sessionRef`. -/
def startLiveSession (fp : FailPoint) (s : AppState) : StartResult × AppState :=
  if s.isInitializing || s.isLive then (StartResult.silentReturn, s)
  else
    let s1 := { s with isInitializing := true }
    match fp with
    | FailPoint.atInputContext =>
        (StartResult.caughtError, { s1 with isInitializing := false })
    | FailPoint.atOutputContext =>
        (StartResult.caughtError,
         { s1 with inputAudioContext := some CtxState.running,
                   isInitializing := false })
    | FailPoint.atGetUserMedia =>
        (StartResult.caughtError,
         { s1 with inputAudioContext := some CtxState.running,
                   outputAudioContext := some CtxState.running,
                   isInitializing := false })
    | FailPoint.atConnect =>
        (StartResult.caughtError,
         { s1 with inputAudioContext := some CtxState.running,
                   outputAudioContext := some CtxState.running,
                   stream := some (),
                   isInitializing := false })
    | FailPoint.success =>
        (StartResult.connected,
         { s1 with inputAudioContext := some CtxState.running,
                   outputAudioContext := some CtxState.running,
                   stream := some (),
                   session := some (),
                   isLive := true,
                   isInitializing := false })

/-- `stopLiveSession` (lines 195-218): null-guarded release of the session,
tracks of the stream, then each audio context when held and not already
`closed`; finally every flag is reset.  `session.close()` is wrapped in
`try/catch` and the context `close()` promises swallow rejection, so the
function never throws — it is total here. -/
def stopLiveSession (s : AppState) : AppState :=
  let s1 := if s.session.isSome then { s with session := none } else s
  let s2 := if s1.stream.isSome then { s1 with stream := none } else s1
  let s3 :=
    match s2.inputAudioContext with
    | some c =>
        if c ≠ CtxState.closed then { s2 with inputAudioContext := none }
        else s2
    | none => s2
  let s4 :=
    match s3.outputAudioContext with
    | some c =>
        if c ≠ CtxState.closed then { s3 with outputAudioContext := none }
        else s3
    | none => s3
  { s4 with isLive := false, isSpeaking := false, isInitializing := false,
            audioLevel := 0 }

/-- The `Idle`/`Closed` configuration of the spec's state machine: no owned
resource held and no lifecycle flag set. -/
def IdleState (s : AppState) : Prop :=
  s.session = none ∧ s.stream = none ∧ s.inputAudioContext = none ∧
    s.outputAudioContext = none ∧ s.isLive = false ∧ s.isInitializing = false

/-- C6 — refuted on the code: when `getUserMedia` throws (the microphone is
unavailable — the very `DeviceUnavailable` case), the `catch` handler at
lines 189-192 only resets the initializing flag, so both freshly constructed
audio contexts remain held: the failed `start()` leaves the system
half-open, contrary to the claim that no input or output audio context
remains held. -/
theorem start_failure_half_open_counterexample :
    (startLiveSession FailPoint.atGetUserMedia initialAppState).2.inputAudioContext
        = some CtxState.running ∧
      (startLiveSession FailPoint.atGetUserMedia initialAppState).2.outputAudioContext
        = some CtxState.running := by
  constructor <;> rfl

/-- C6 amended — a failed `start()` from `Idle` clears the initializing
flag, stays not-live and never stores a session handle, but does not release
the resources acquired before the failing step: the input audio context
remains held unless constructing it was the failing step, the output audio
context remains held once its construction succeeded, and the capture
stream remains held when only the connection step failed. -/
theorem start_failure_amended (s : AppState) (hs : IdleState s)
    (fp : FailPoint) (hfp : fp ≠ FailPoint.success) :
    (startLiveSession fp s).1 = StartResult.caughtError ∧
      (startLiveSession fp s).2.isInitializing = false ∧
      (startLiveSession fp s).2.isLive = false ∧
      (startLiveSession fp s).2.session = none ∧
      (startLiveSession fp s).2.inputAudioContext =
        (if fp = FailPoint.atInputContext then none
         else some CtxState.running) ∧
      (startLiveSession fp s).2.outputAudioContext =
        (if fp = FailPoint.atInputContext ∨ fp = FailPoint.atOutputContext
         then none else some CtxState.running) ∧
      (startLiveSession fp s).2.stream =
        (if fp = FailPoint.atConnect then some () else none) := by
  obtain ⟨h1, h2, h3, h4, h5, h6⟩ := hs
  cases fp <;> simp_all [startLiveSession]

/-- C6 amended witness: `getUserMedia` failing on a fresh state. -/
theorem start_failure_amended_witness :
    (startLiveSession FailPoint.atGetUserMedia initialAppState).1
        = StartResult.caughtError ∧
      (startLiveSession FailPoint.atGetUserMedia initialAppState).2.session
        = none ∧
      (startLiveSession FailPoint.atGetUserMedia initialAppState).2.isInitializing
        = false := by
  have h := start_failure_amended initialAppState
    (by simp [IdleState, initialAppState]) FailPoint.atGetUserMedia
    (by decide)
  exact ⟨h.1, h.2.2.2.1, h.2.1⟩

/-- Single teardown: from any state whose held audio contexts are not
already closed (the only configurations the program reaches — a context ref
is nulled in the same step that closes it), `stopLiveSession` releases every
owned resource and lands in `Idle`/`Closed`. -/
theorem stopLiveSession_closes (s : AppState)
    (h1 : s.inputAudioContext ≠ some CtxState.closed)
    (h2 : s.outputAudioContext ≠ some CtxState.closed) :
    IdleState (stopLiveSession s) := by
  obtain ⟨sess, str, ictx, octx, l, sp, ini, al⟩ := s
  cases sess <;> cases str <;>
    rcases ictx with _ | ic <;> rcases octx with _ | oc <;>
    simp_all [stopLiveSession, IdleState]

/-- C7 — Idempotent teardown: `stopLiveSession` is a total function (every
throwing release inside it is guarded, see its doc), calling it twice in a
row from any reachable state leaves the `Idle`/`Closed` configuration with
the session handle, capture stream and both audio contexts null, and calling
it before any start leaves the initial state unchanged. -/
theorem stop_idempotent_teardown :
    (∀ s : AppState, s.inputAudioContext ≠ some CtxState.closed →
        s.outputAudioContext ≠ some CtxState.closed →
        IdleState (stopLiveSession (stopLiveSession s))) ∧
      stopLiveSession initialAppState = initialAppState := by
  constructor
  · intro s h1 h2
    have h := stopLiveSession_closes s h1 h2
    exact stopLiveSession_closes (stopLiveSession s)
      (by rw [h.2.2.1]; simp) (by rw [h.2.2.2.1]; simp)
  · rfl

/-- A live session snapshot: connection open, stream and contexts held. -/
def sampleLiveState : AppState :=
  { session := some (), stream := some (),
    inputAudioContext := some CtxState.running,
    outputAudioContext := some CtxState.running,
    isLive := true, isSpeaking := false, isInitializing := false,
    audioLevel := 0 }

/-- C7 witness: stopping a live session twice lands in `Idle`/`Closed`. -/
theorem stop_idempotent_teardown_witness :
    IdleState (stopLiveSession (stopLiveSession sampleLiveState)) :=
  stop_idempotent_teardown.1 sampleLiveState (by decide) (by decide)

/-- C8 — refuted on the code: calling `startLiveSession` while a session is
live hits the guard `if (isInitializing || isLive) return;` (line 94) and
returns silently with the state untouched; no `AlreadyActive` error — indeed
no error at all (the only error path is the `catch` handler) — is surfaced
to the caller. -/
theorem start_reentry_counterexample :
    (startLiveSession FailPoint.success sampleLiveState).1
        = StartResult.silentReturn ∧
      (startLiveSession FailPoint.success sampleLiveState).1
        ≠ StartResult.caughtError ∧
      (startLiveSession FailPoint.success sampleLiveState).2
        = sampleLiveState := by
  refine ⟨rfl, by decide, rfl⟩

/-- C8 amended — `start()` invoked while the session is initializing or
live is a silent no-op: it returns immediately without raising any error
and without changing any state. -/
theorem start_reentry_amended (fp : FailPoint) (s : AppState)
    (h : s.isInitializing = true ∨ s.isLive = true) :
    startLiveSession fp s = (StartResult.silentReturn, s) := by
  rcases h with h | h <;> simp [startLiveSession, h]

/-- C8 amended witness: reentry on a live session is a silent no-op. -/
theorem start_reentry_amended_witness :
    startLiveSession FailPoint.atConnect sampleLiveState
      = (StartResult.silentReturn, sampleLiveState) :=
  start_reentry_amended FailPoint.atConnect sampleLiveState (Or.inr rfl)

/-! ## Capture-side level metering

Embeds the `onaudioprocess` metering loop (`src/unnamed/part_000` lines
121-126): `let sum = 0; for (...) sum += inputData[i] * inputData[i];
const level = Math.sqrt(sum / inputData.length)`.  A captured frame is a
list of samples in `[-1, 1]`, modelled over ℝ (`Real.sqrt` forces these
definitions to be noncomputable; the witness evaluates them by `simp`). -/

/-- The running `sum += inputData[i] * inputData[i]` loop (lines 123-124). -/
def sumSquares (xs : List ℝ) : ℝ :=
  xs.foldl (fun acc x => acc + x * x) 0

/-- Line 125: `const level = Math.sqrt(sum / inputData.length)`. -/
noncomputable def audioLevelOf (xs : List ℝ) : ℝ :=
  Real.sqrt (sumSquares xs / xs.length)

/-- Modelled from the spec's words, for comparison with `audioLevelOf`:
the root-mean-square loudness `sqrt(mean(sample_i^2))` over the frame. -/
noncomputable def rmsSpec (xs : List ℝ) : ℝ :=
  Real.sqrt ((xs.map fun x => x * x).sum / xs.length)

theorem sumSquares_eq_sum_map (xs : List ℝ) :
    sumSquares xs = (xs.map fun x => x * x).sum := by
  have key : ∀ (l : List ℝ) (a : ℝ),
      l.foldl (fun acc x => acc + x * x) a = a + (l.map fun x => x * x).sum := by
    intro l
    induction l with
    | nil => intro a; simp
    | cons y ys ih =>
        intro a
        simp [List.foldl_cons, ih]
        ring
  simpa using key xs 0

/-- C9 — Level metering correctness: the computed level equals the
root-mean-square of the frame's samples; an all-zero frame yields level 0;
a frame whose samples all have magnitude 1 yields level 1. -/
theorem level_metering :
    (∀ xs : List ℝ, audioLevelOf xs = rmsSpec xs) ∧
      (∀ n : ℕ, audioLevelOf (List.replicate n 0) = 0) ∧
      (∀ xs : List ℝ, xs ≠ [] → (∀ x ∈ xs, |x| = 1) →
        audioLevelOf xs = 1) := by
  refine ⟨?_, ?_, ?_⟩
  · intro xs
    rw [audioLevelOf, rmsSpec, sumSquares_eq_sum_map]
  · intro n
    simp [audioLevelOf, sumSquares_eq_sum_map, List.map_replicate]
  · intro xs hne hmag
    have hrepl : xs.map (fun x => x * x) = List.replicate xs.length 1 := by
      rw [List.eq_replicate_iff]
      refine ⟨by simp, ?_⟩
      intro b hb
      rw [List.mem_map] at hb
      obtain ⟨x, hx, hbx⟩ := hb
      have := hmag x hx
      calc b = x * x := hbx.symm
        _ = |x| * |x| := (abs_mul_abs_self x).symm
        _ = 1 := by rw [this]; norm_num
    have hpos : 0 < xs.length := List.length_pos.mpr hne
    have hlen : (xs.length : ℝ) ≠ 0 := by
      exact_mod_cast Nat.pos_iff_ne_zero.mp hpos
    rw [audioLevelOf, sumSquares_eq_sum_map, hrepl]
    simp [List.sum_replicate, hlen]

/-- C9 witness: the two-sample full-scale frame `[1, -1]` meters at 1. -/
theorem level_metering_witness : audioLevelOf [(1 : ℝ), -1] = 1 :=
  level_metering.2.2 [(1 : ℝ), -1] (by simp)
    (by
      intro x hx
      rw [List.mem_cons, List.mem_singleton] at hx
      rcases hx with h | h <;> rw [h] <;> norm_num)

end KellySeek
